import Mathlib

/-!
Verification of the NodeBB user-deletion orchestrator (`src/user/delete.js`).

The file is shallowly embedded: each JavaScript function that the claims
touch becomes an executable Lean definition.  Asynchronous store and
collaborator calls are modelled as environment-supplied outcomes
(`Option JsErr`: `none` means the awaited call resolved, `some e` means it
rejected with error `e`); since every call in the source is `await`ed in
program order, a phase is a deterministic sequence that aborts at the first
rejecting call.  The in-memory guard object `deletesInProgress` is an
association list from the uid's property key to the stored phase string.
-/

set_option autoImplicit false

namespace UserDelete

/-- The two phase strings ever stored in `deletesInProgress`:
`user.delete` (content phase) and `user.deleteAccount` (account phase).
Both are nonempty strings, hence truthy in JavaScript. -/
inductive Phase
  | userDelete
  | userDeleteAccount
deriving DecidableEq, Repr

/-- The errors the file can throw, plus `other` for an arbitrary error
propagated from a store or collaborator call. -/
inductive JsErr
  | invalidUid
  | alreadyDeleting
  | noUser
  | other (msg : String)
deriving DecidableEq, Repr

/-- A uid argument as the file observes it: `key` is the property-key
string used to index `deletesInProgress` (JavaScript coerces the uid to a
string there), and `parsed` is the result of `parseInt(uid, 10)` —
`none` models `NaN` (malformed, non-numeric input). -/
structure Uid where
  key : String
  parsed : Option Int
deriving DecidableEq, Repr

/-- `parseInt(uid, 10) <= 0`: any comparison with `NaN` is false in
JavaScript, so a malformed uid does NOT satisfy this test. -/
def parseLeZero (u : Uid) : Bool :=
  match u.parsed with
  | some n => decide (n ≤ 0)
  | none => false

/-- The `deletesInProgress` object: an association list from uid key to
the stored phase string. -/
abbrev Guard := List (String × Phase)

/-- Property read `deletesInProgress[key]`. -/
def guardGet : Guard → String → Option Phase
  | [], _ => none
  | (k, p) :: rest, key => if k = key then some p else guardGet rest key

/-- `delete deletesInProgress[key]`. -/
def guardDelete (g : Guard) (key : String) : Guard :=
  g.filter (fun e => e.1 ≠ key)

/-- Assignment `deletesInProgress[key] = p`. -/
def guardSet (g : Guard) (key : String) (p : Phase) : Guard :=
  (key, p) :: guardDelete g key

/-- Environment for one call of `deleteImages`: the outcome handed to the
`exec` callback of the diagnostic file-count shell command, and the
outcomes of the two awaited `rimraf` calls (cover pattern first, then
avatar pattern). -/
structure ImagesEnv where
  execError : Option String
  execStderr : Option String
  rimrafCover : Option JsErr
  rimrafAvatar : Option JsErr
deriving DecidableEq, Repr

/-- `deleteImages(uid)`: the `exec` diagnostic handles its own error and
stderr inside the callback (it only logs and returns), so neither outcome
reaches the promise chain; the two `rimraf` calls are awaited bare, so a
rejection of either propagates out of `deleteImages`. -/
def deleteImagesRun (env : ImagesEnv) : Except JsErr Unit :=
  match env.rimrafCover with
  | some e => Except.error e
  | none =>
    match env.rimrafAvatar with
    | some e => Except.error e
    | none => Except.ok ()

/-- The five awaited sub-operations of `deleteContent`, in source order. -/
inductive ContentStep
  | images
  | posts
  | topics
  | uploads
  | queued
deriving DecidableEq, Repr

/-- Environment for one call of `deleteContent`: the images environment
and the outcome of each of the four remaining awaited sub-operations. -/
structure ContentEnv where
  images : ImagesEnv
  posts : Option JsErr
  topics : Option JsErr
  uploads : Option JsErr
  queued : Option JsErr
deriving DecidableEq, Repr

/-- Result of a `deleteContent` call: the returned or thrown value, the
final `deletesInProgress` state, and the trace of sub-operations that were
started. -/
structure ContentResult where
  result : Except JsErr Unit
  guard : Guard
  trace : List ContentStep
deriving Repr

/-- `User.deleteContent(callerUid, uid)`:
throws `invalid-uid` when `parseInt(uid, 10) <= 0`; throws
`already-deleting` when `deletesInProgress[uid]` is truthy (any stored
entry); otherwise stores the `user.delete` marker and awaits
`deleteImages`, `deletePosts`, `deleteTopics`, `deleteUploads`,
`deleteQueued` in that order, deleting the marker only after all five
resolve.  There is no `try`/`finally`: a rejection leaves the marker in
place. -/
def deleteContent (env : ContentEnv) (g : Guard) (uid : Uid) : ContentResult :=
  if parseLeZero uid then
    ⟨Except.error JsErr.invalidUid, g, []⟩
  else if (guardGet g uid.key).isSome then
    ⟨Except.error JsErr.alreadyDeleting, g, []⟩
  else
    let g1 := guardSet g uid.key Phase.userDelete
    match deleteImagesRun env.images with
    | Except.error e => ⟨Except.error e, g1, [ContentStep.images]⟩
    | Except.ok _ =>
      match env.posts with
      | some e => ⟨Except.error e, g1, [ContentStep.images, ContentStep.posts]⟩
      | none =>
        match env.topics with
        | some e =>
          ⟨Except.error e, g1,
            [ContentStep.images, ContentStep.posts, ContentStep.topics]⟩
        | none =>
          match env.uploads with
          | some e =>
            ⟨Except.error e, g1,
              [ContentStep.images, ContentStep.posts, ContentStep.topics,
                ContentStep.uploads]⟩
          | none =>
            match env.queued with
            | some e =>
              ⟨Except.error e, g1,
                [ContentStep.images, ContentStep.posts, ContentStep.topics,
                  ContentStep.uploads, ContentStep.queued]⟩
            | none =>
              ⟨Except.ok (), guardDelete g1 uid.key,
                [ContentStep.images, ContentStep.posts, ContentStep.topics,
                  ContentStep.uploads, ContentStep.queued]⟩

/-- The full source order of `deleteContent`'s sub-operations. -/
def contentOrder : List ContentStep :=
  [ContentStep.images, ContentStep.posts, ContentStep.topics,
    ContentStep.uploads, ContentStep.queued]

/-- The user record object loaded from the store key `user:` followed by
the uid.  Each field is `none` when absent; the empty string models a
present-but-falsy value (JavaScript treats both as falsy). -/
structure UserData where
  username : Option String
  userslug : Option String
  fullname : Option String
  email : Option String
deriving DecidableEq, Repr

/-- JavaScript truthiness of an optional string field: present and
nonempty. -/
def truthyStr : Option String → Bool
  | none => false
  | some s => s ≠ ""

/-- The check `!userData || !userData.username` from `deleteAccount`,
negated: the loaded record exists and has a truthy `username`. -/
def recordTruthy : Option UserData → Bool
  | none => false
  | some ud => truthyStr ud.username

/-- The awaited calls of `deleteAccount`, in source order.  The first two
precede the user-record existence check; the rest run only when the
record is present with a truthy `username`. -/
inductive AccountStep
  | removeFromSortedSets
  | getUserObject
  | hookFire
  | votes
  | chats
  | revokeSessions
  | bulkRemoveIdx
  | decrUserCount
  | deleteKeys
  | invitationRemove
  | ips
  | followersCleanup
  | followedTopics
  | ignoredTopics
  | followedTags
  | images
  | leaveGroups
  | resolveFlag
  | resetClean
  | emailExpire
  | finalDeleteAll
deriving DecidableEq, Repr

/-- The calls of `deleteAccount` that follow the user-record check, in
the order the source awaits them (the commented-out `Promise.all` is in
fact a sequence of bare `await`s). -/
def stepsAfterCheck : List AccountStep :=
  [AccountStep.hookFire, AccountStep.votes, AccountStep.chats,
    AccountStep.revokeSessions, AccountStep.bulkRemoveIdx,
    AccountStep.decrUserCount, AccountStep.deleteKeys,
    AccountStep.invitationRemove, AccountStep.ips,
    AccountStep.followersCleanup, AccountStep.followedTopics,
    AccountStep.ignoredTopics, AccountStep.followedTags,
    AccountStep.images, AccountStep.leaveGroups, AccountStep.resolveFlag,
    AccountStep.resetClean, AccountStep.emailExpire,
    AccountStep.finalDeleteAll]

/-- Await a list of calls in order, aborting at the first rejection;
returns the first error (if any) and the trace of calls started. -/
def runSteps (res : AccountStep → Option JsErr) :
    List AccountStep → Option JsErr × List AccountStep
  | [] => (none, [])
  | s :: rest =>
    match res s with
    | some e => (some e, [s])
    | none =>
      let r := runSteps res rest
      (r.1, s :: r.2)

/-- Environment for one call of `deleteAccount`: the outcome of each
awaited call, and the value `db.getObject` returns for the user record
(`none` models a missing record). -/
structure AccountEnv where
  stepResult : AccountStep → Option JsErr
  userObject : Option UserData

/-- Result of a `deleteAccount` call: the returned snapshot or thrown
error, the final `deletesInProgress` state, and the trace of awaited
calls that were started. -/
structure AccountResult where
  result : Except JsErr UserData
  guard : Guard
  trace : List AccountStep
deriving Repr

/-- `User.deleteAccount(uid)`: throws `already-deleting` only when
`deletesInProgress[uid]` is exactly the string `user.deleteAccount`
(a `user.delete` content-phase entry does NOT block; it is overwritten);
stores the `user.deleteAccount` marker; awaits `removeFromSortedSets`
and the user-record load; if the record is missing or its `username` is
falsy, deletes the marker and throws `no-user`; otherwise awaits the
remaining calls of `stepsAfterCheck` in order and deletes the marker
only after the last one resolves.  No `try`/`finally`: a rejection of
any awaited call leaves the marker in place. -/
def deleteAccount (env : AccountEnv) (g : Guard) (uid : Uid) : AccountResult :=
  if guardGet g uid.key = some Phase.userDeleteAccount then
    ⟨Except.error JsErr.alreadyDeleting, g, []⟩
  else
    let g1 := guardSet g uid.key Phase.userDeleteAccount
    match env.stepResult AccountStep.removeFromSortedSets with
    | some e => ⟨Except.error e, g1, [AccountStep.removeFromSortedSets]⟩
    | none =>
      match env.stepResult AccountStep.getUserObject with
      | some e =>
        ⟨Except.error e, g1,
          [AccountStep.removeFromSortedSets, AccountStep.getUserObject]⟩
      | none =>
        match env.userObject with
        | none =>
          ⟨Except.error JsErr.noUser, guardDelete g1 uid.key,
            [AccountStep.removeFromSortedSets, AccountStep.getUserObject]⟩
        | some ud =>
          if truthyStr ud.username then
            let r := runSteps env.stepResult stepsAfterCheck
            match r.1 with
            | some e =>
              ⟨Except.error e, g1,
                AccountStep.removeFromSortedSets ::
                  AccountStep.getUserObject :: r.2⟩
            | none =>
              ⟨Except.ok ud, guardDelete g1 uid.key,
                AccountStep.removeFromSortedSets ::
                  AccountStep.getUserObject :: r.2⟩
          else
            ⟨Except.error JsErr.noUser, guardDelete g1 uid.key,
              [AccountStep.removeFromSortedSets, AccountStep.getUserObject]⟩

/-- The `bulkRemove` list built inside `deleteAccount` for the
uniqueness-index removal (`db.sortedSetRemoveBulk`).  Each element pairs
an index key with the member to remove; the member is `none` when the
source would pass `undefined` (a missing record field).  The initial
array literal unconditionally contains the `username:uid`,
`username:sorted`, `userslug:uid` AND `fullname:uid` entries; the
`email:uid` and `email:sorted` entries are pushed only when
`userData.email` is truthy, and the `fullname:sorted` entry only when
`userData.fullname` is truthy.  (`username` is truthy here, guaranteed
by the record check before this point.) -/
def bulkRemove (uid : String) (u : UserData) : List (String × Option String) :=
  ([("username:uid", u.username),
    ("username:sorted", u.username.map (fun s => s.toLower ++ ":" ++ uid)),
    ("userslug:uid", u.userslug),
    ("fullname:uid", u.fullname)]
  ++ (if truthyStr u.email then
        [("email:uid", u.email.map String.toLower),
          ("email:sorted", u.email.map (fun s => s.toLower ++ ":" ++ uid))]
      else []))
  ++ (if truthyStr u.fullname then
        [("fullname:sorted", u.fullname.map (fun s => s.toLower ++ ":" ++ uid))]
      else [])

/-- Modelled from the spec: `batch.processSortedSet` (module `src/batch`,
not under `src/` here) repeatedly fetches up to `batchSize` member ids in
index order, hands each chunk to the handler sequentially, and stops when
a fetch returns fewer members than `batchSize`; equivalently it splits the
member list into consecutive chunks of size `batchSize` (last chunk
possibly shorter) and folds the handler over them in order. -/
def chunksOf {α : Type} (n : Nat) : List α → List (List α)
  | [] => []
  | x :: xs => (x :: xs.take (n - 1)) :: chunksOf n (xs.drop (n - 1))
termination_by l => l.length
decreasing_by simp [List.length_drop]; omega

/-- A queue object loaded from key `post:queue:` followed by the entry
id: its `uid` field as `parseInt(d.uid, 10)` sees it (`none` for `NaN`),
and its `id` field. -/
structure QueueEntry where
  uid : Option Int
  id : String
deriving DecidableEq, Repr

/-- JavaScript `parseInt(a) === parseInt(b)` on the parsed values:
strict equality, and any comparison involving `NaN` is false. -/
def jsStrictEqNum : Option Int → Option Int → Bool
  | some a, some b => a == b
  | _, _ => false

/-- `deleteQueued(uid)`: batch-scan the global `post:queue` sorted set in
chunks of 500, load each chunk's queue objects, keep those whose `uid`
field strictly equals the target uid, accumulate their `id`s across all
chunks (`deleteIds`), which are then removed one at a time by
`async.eachSeries(deleteIds, posts.removeFromQueue)` — so the returned
list is, in order, the sequence of `posts.removeFromQueue` calls. -/
def deleteQueued (queue : List String) (getObj : String → QueueEntry)
    (uid : Uid) : List String :=
  (chunksOf 500 queue).foldl
    (fun acc ids =>
      acc ++
        ((ids.map getObj).filter
          (fun d => jsStrictEqNum d.uid uid.parsed)).map QueueEntry.id)
    []

/-- The slice of the store that `deleteUserFromFollowers` touches:
`followers` k and `following` k are the member lists of the sorted sets
`followers:`k and `following:`k, and the two count fields are the
`followerCount` / `followingCount` fields of the record `user:`k. -/
structure FollowStore where
  followers : String → List String
  following : String → List String
  followerCount : String → Int
  followingCount : String → Int

/-- `db.sortedSetsRemove(keys.map(k => followers:k), uid)`: remove `uid`
from the followers set of every key in `keys`. -/
def removeUidFromFollowerSets (s : FollowStore) (keys : List String)
    (uid : String) : FollowStore :=
  { s with
    followers := fun k =>
      if k ∈ keys then (s.followers k).filter (fun x => x ≠ uid)
      else s.followers k }

/-- `db.sortedSetsRemove(keys.map(k => following:k), uid)`: remove `uid`
from the following set of every key in `keys`. -/
def removeUidFromFollowingSets (s : FollowStore) (keys : List String)
    (uid : String) : FollowStore :=
  { s with
    following := fun k =>
      if k ∈ keys then (s.following k).filter (fun x => x ≠ uid)
      else s.following k }

/-- `updateCount(uids, 'followers:', 'followerCount')`: for each uid in
the list, read the cardinality of its followers set and store it as its
`followerCount` field (a recomputation from live set size). -/
def updateFollowerCounts (s : FollowStore) (uids : List String) : FollowStore :=
  uids.foldl
    (fun st u =>
      { st with
        followerCount := fun k =>
          if k = u then ((st.followers u).length : Int)
          else st.followerCount k })
    s

/-- `updateCount(uids, 'following:', 'followingCount')`: for each uid in
the list, read the cardinality of its following set and store it as its
`followingCount` field. -/
def updateFollowingCounts (s : FollowStore) (uids : List String) : FollowStore :=
  uids.foldl
    (fun st u =>
      { st with
        followingCount := fun k =>
          if k = u then ((st.following u).length : Int)
          else st.followingCount k })
    s

/-- `deleteUserFromFollowers(uid)`: read `followers:`uid and
`following:`uid; remove `uid` from `followers:`v for every v it followed
and from `following:`v for every v that followed it; then recompute
`followerCount` for every v in `following` from the cardinality of
`followers:`v, and `followingCount` for every v in `followers` from the
cardinality of `following:`v.  The source wraps the removal and the two
`updateCount` calls in `Promise.all`; they are modelled in
promise-creation order (the store processes commands over one connection
in issue order, and the removal command is issued first, before the
first cardinality read). -/
def deleteUserFromFollowers (s : FollowStore) (uid : String) : FollowStore :=
  let followers := s.followers uid
  let following := s.following uid
  let s1 := removeUidFromFollowerSets s following uid
  let s2 := removeUidFromFollowingSets s1 followers uid
  let s3 := updateFollowerCounts s2 following
  updateFollowingCounts s3 followers

/-! Concrete fixtures used by witnesses and counterexamples. -/

/-- An `ImagesEnv` in which every call resolves. -/
def okImages : ImagesEnv := ⟨none, none, none, none⟩

/-- A `ContentEnv` in which every sub-operation resolves. -/
def okContentEnv : ContentEnv := ⟨okImages, none, none, none, none⟩

/-- An `ImagesEnv` whose first `rimraf` call (the profilecover pattern)
rejects with a filesystem error. -/
def coverFailImages : ImagesEnv := ⟨none, none, some (JsErr.other "EPERM"), none⟩

/-- A `ContentEnv` in which only the profilecover `rimraf` call rejects. -/
def coverFailEnv : ContentEnv := ⟨coverFailImages, none, none, none, none⟩

/-- A `ContentEnv` in which only `deletePosts` rejects. -/
def postsFailEnv : ContentEnv := ⟨okImages, some (JsErr.other "boom"), none, none, none⟩

/-- A user record with a truthy username but no fullname and no email. -/
def aliceData : UserData := ⟨some "Alice", some "alice", none, none⟩

/-- An `AccountEnv` in which every call resolves and the user record
loads as `aliceData`. -/
def okAccountEnv : AccountEnv := ⟨fun _ => none, some aliceData⟩

/-- An `AccountEnv` in which every call resolves but the user record is
missing from the store. -/
def noUserEnv : AccountEnv := ⟨fun _ => none, none⟩

/-- A well-formed uid. -/
def uid42 : Uid := ⟨"42", some 42⟩

/-- A malformed (non-numeric) uid: `parseInt` yields `NaN`. -/
def uidMalformed : Uid := ⟨"abc", none⟩

/-- Users 1 and 2 follow each other; both counters start at 1. -/
def mutualStore : FollowStore where
  followers k := if k = "1" then ["2"] else if k = "2" then ["1"] else []
  following k := if k = "1" then ["2"] else if k = "2" then ["1"] else []
  followerCount k := if k = "1" ∨ k = "2" then 1 else 0
  followingCount k := if k = "1" ∨ k = "2" then 1 else 0

/-- User 2 follows user 1 (and is not followed back); user 2's
`followerCount` field has drifted to 5 while its followers set is
empty. -/
def driftStore : FollowStore where
  followers k := if k = "1" then ["2"] else []
  following _ := []
  followerCount k := if k = "2" then 5 else 0
  followingCount _ := 0

/-! Library lemmas about the embedded operations. -/

@[simp] theorem guardGet_guardSet_same (g : Guard) (key : String) (p : Phase) :
    guardGet (guardSet g key p) key = some p := by
  simp [guardSet, guardGet]

@[simp] theorem guardGet_guardDelete_same (g : Guard) (key : String) :
    guardGet (guardDelete g key) key = none := by
  induction g with
  | nil => rfl
  | cons e rest ih =>
    by_cases h : e.1 = key
    · simpa [guardDelete, h] using ih
    · simpa [guardDelete, guardGet, h] using ih

theorem flatten_chunksOf {α : Type} (n : Nat) (l : List α) :
    (chunksOf n l).flatten = l := by
  have H : ∀ m : Nat, ∀ l : List α, l.length ≤ m →
      (chunksOf n l).flatten = l := by
    intro m
    induction m with
    | zero =>
      intro l h
      cases l with
      | nil => simp [chunksOf]
      | cons x xs => simp at h
    | succ m ih =>
      intro l h
      cases l with
      | nil => simp [chunksOf]
      | cons x xs =>
        have hxs : xs.length ≤ m := by simp [List.length_cons] at h; omega
        have hdrop : (xs.drop (n - 1)).length ≤ m := by
          rw [List.length_drop]; omega
        rw [chunksOf, List.flatten_cons, ih _ hdrop]
        simp [List.take_append_drop]
  exact H l.length l (Nat.le_refl _)

theorem deleteContent_ok_guard (env : ContentEnv) (g : Guard) (uid : Uid)
    (h : (deleteContent env g uid).result = Except.ok ()) :
    guardGet (deleteContent env g uid).guard uid.key = none := by
  cases hv : parseLeZero uid <;>
    cases hg : (guardGet g uid.key).isSome <;>
      rcases hi : deleteImagesRun env.images with e | u <;>
        cases hp : env.posts <;> cases ht : env.topics <;>
          cases hu : env.uploads <;> cases hq : env.queued <;>
            simp_all [deleteContent]

theorem deleteContent_error_guard (env : ContentEnv) (g : Guard) (uid : Uid)
    (hv : parseLeZero uid = false) (hg : (guardGet g uid.key).isSome = false)
    (e : JsErr) (h : (deleteContent env g uid).result = Except.error e) :
    guardGet (deleteContent env g uid).guard uid.key = some Phase.userDelete := by
  rcases hi : deleteImagesRun env.images with e' | u <;>
    cases hp : env.posts <;> cases ht : env.topics <;>
      cases hu : env.uploads <;> cases hq : env.queued <;>
        simp_all [deleteContent]

theorem deleteContent_invalid (env : ContentEnv) (g : Guard) (uid : Uid)
    (hv : parseLeZero uid = true) :
    deleteContent env g uid = ⟨Except.error JsErr.invalidUid, g, []⟩ := by
  simp [deleteContent, hv]

theorem deleteContent_held (env : ContentEnv) (g : Guard) (uid : Uid)
    (hv : parseLeZero uid = false) (hg : (guardGet g uid.key).isSome = true) :
    deleteContent env g uid = ⟨Except.error JsErr.alreadyDeleting, g, []⟩ := by
  simp [deleteContent, hv, hg]

theorem runSteps_error_mem (res : AccountStep → Option JsErr)
    (steps : List AccountStep) (e : JsErr)
    (h : (runSteps res steps).1 = some e) : ∃ s ∈ steps, res s = some e := by
  induction steps with
  | nil => simp [runSteps] at h
  | cons s rest ih =>
    cases hr : res s with
    | some e' =>
      simp [runSteps, hr] at h
      exact ⟨s, List.mem_cons_self s rest, by rw [hr, h]⟩
    | none =>
      simp [runSteps, hr] at h
      obtain ⟨s', hs', hres⟩ := ih h
      exact ⟨s', List.mem_cons_of_mem _ hs', hres⟩

theorem runSteps_all_ok (res : AccountStep → Option JsErr)
    (steps : List AccountStep) (h : ∀ s ∈ steps, res s = none) :
    runSteps res steps = (none, steps) := by
  induction steps with
  | nil => rfl
  | cons s rest ih =>
    simp [runSteps, h s (List.mem_cons_self s rest),
      ih (fun x hx => h x (List.mem_cons_of_mem _ hx))]

theorem deleteAccount_held (aenv : AccountEnv) (g : Guard) (uid : Uid)
    (hg : guardGet g uid.key = some Phase.userDeleteAccount) :
    deleteAccount aenv g uid = ⟨Except.error JsErr.alreadyDeleting, g, []⟩ := by
  simp [deleteAccount, hg]

theorem deleteAccount_ok_guard (aenv : AccountEnv) (g : Guard) (uid : Uid)
    (ud : UserData) (h : (deleteAccount aenv g uid).result = Except.ok ud) :
    guardGet (deleteAccount aenv g uid).guard uid.key = none := by
  by_cases hg : guardGet g uid.key = some Phase.userDeleteAccount <;>
    cases h1 : aenv.stepResult AccountStep.removeFromSortedSets <;>
      cases h2 : aenv.stepResult AccountStep.getUserObject <;>
        cases ho : aenv.userObject <;>
          cases htr : recordTruthy aenv.userObject <;>
            cases hrs : (runSteps aenv.stepResult stepsAfterCheck).1 <;>
              simp_all [deleteAccount, recordTruthy]

theorem deleteAccount_noUser (aenv : AccountEnv) (g : Guard) (uid : Uid)
    (hg : guardGet g uid.key ≠ some Phase.userDeleteAccount)
    (h1 : aenv.stepResult AccountStep.removeFromSortedSets = none)
    (h2 : aenv.stepResult AccountStep.getUserObject = none)
    (htr : recordTruthy aenv.userObject = false) :
    (deleteAccount aenv g uid).result = Except.error JsErr.noUser ∧
    guardGet (deleteAccount aenv g uid).guard uid.key = none ∧
    (deleteAccount aenv g uid).trace =
      [AccountStep.removeFromSortedSets, AccountStep.getUserObject] := by
  cases ho : aenv.userObject <;> simp_all [deleteAccount, recordTruthy]

theorem deleteAccount_error_keeps (aenv : AccountEnv) (g : Guard) (uid : Uid)
    (hg : guardGet g uid.key ≠ some Phase.userDeleteAccount)
    (hnot : ¬(aenv.stepResult AccountStep.removeFromSortedSets = none ∧
      aenv.stepResult AccountStep.getUserObject = none ∧
      recordTruthy aenv.userObject = false))
    (e : JsErr) (h : (deleteAccount aenv g uid).result = Except.error e) :
    guardGet (deleteAccount aenv g uid).guard uid.key =
      some Phase.userDeleteAccount := by
  cases h1 : aenv.stepResult AccountStep.removeFromSortedSets <;>
    cases h2 : aenv.stepResult AccountStep.getUserObject <;>
      cases ho : aenv.userObject <;>
        cases htr : recordTruthy aenv.userObject <;>
          cases hrs : (runSteps aenv.stepResult stepsAfterCheck).1 <;>
            simp_all [deleteAccount, recordTruthy]

theorem deleteAccount_no_invalid (aenv : AccountEnv) (g : Guard) (uid : Uid)
    (hni : ∀ s, aenv.stepResult s ≠ some JsErr.invalidUid) :
    (deleteAccount aenv g uid).result ≠ Except.error JsErr.invalidUid := by
  intro h
  by_cases hg : guardGet g uid.key = some Phase.userDeleteAccount
  · simp_all [deleteAccount]
  · cases h1 : aenv.stepResult AccountStep.removeFromSortedSets with
    | some e =>
      have : e = JsErr.invalidUid := by simp_all [deleteAccount]
      exact hni _ (this ▸ h1)
    | none =>
      cases h2 : aenv.stepResult AccountStep.getUserObject with
      | some e =>
        have : e = JsErr.invalidUid := by simp_all [deleteAccount]
        exact hni _ (this ▸ h2)
      | none =>
        cases hrs : (runSteps aenv.stepResult stepsAfterCheck).1 with
        | some e =>
          have he : e = JsErr.invalidUid := by
            cases ho : aenv.userObject <;>
              cases htr : recordTruthy aenv.userObject <;>
                simp_all [deleteAccount, recordTruthy]
          obtain ⟨s, _, hres⟩ := runSteps_error_mem _ _ _ hrs
          exact hni s (he ▸ hres)
        | none =>
          cases ho : aenv.userObject <;>
            cases htr : recordTruthy aenv.userObject <;>
              simp_all [deleteAccount, recordTruthy]

theorem deleteQueued_chunks (getObj : String → QueueEntry) (uidp : Option Int)
    (cs : List (List String)) (acc : List String) :
    cs.foldl
      (fun acc ids =>
        acc ++
          ((ids.map getObj).filter
            (fun d => jsStrictEqNum d.uid uidp)).map QueueEntry.id) acc
      = acc ++
          ((cs.flatten.map getObj).filter
            (fun d => jsStrictEqNum d.uid uidp)).map QueueEntry.id := by
  induction cs generalizing acc with
  | nil => simp
  | cons c cs ih =>
    simp [ih, List.map_append, List.filter_append, List.append_assoc]

theorem updateFollowerCounts_cons (s : FollowStore) (u : String)
    (us : List String) :
    updateFollowerCounts s (u :: us) =
      updateFollowerCounts
        { s with
          followerCount := fun k =>
            if k = u then ((s.followers u).length : Int)
            else s.followerCount k } us := rfl

theorem updateFollowingCounts_cons (s : FollowStore) (u : String)
    (us : List String) :
    updateFollowingCounts s (u :: us) =
      updateFollowingCounts
        { s with
          followingCount := fun k =>
            if k = u then ((s.following u).length : Int)
            else s.followingCount k } us := rfl

theorem updateFollowerCounts_followers (s : FollowStore) (uids : List String) :
    (updateFollowerCounts s uids).followers = s.followers := by
  induction uids generalizing s with
  | nil => rfl
  | cons u us ih => rw [updateFollowerCounts_cons, ih]

theorem updateFollowerCounts_following (s : FollowStore) (uids : List String) :
    (updateFollowerCounts s uids).following = s.following := by
  induction uids generalizing s with
  | nil => rfl
  | cons u us ih => rw [updateFollowerCounts_cons, ih]

theorem updateFollowingCounts_followers (s : FollowStore) (uids : List String) :
    (updateFollowingCounts s uids).followers = s.followers := by
  induction uids generalizing s with
  | nil => rfl
  | cons u us ih => rw [updateFollowingCounts_cons, ih]

theorem updateFollowingCounts_following (s : FollowStore) (uids : List String) :
    (updateFollowingCounts s uids).following = s.following := by
  induction uids generalizing s with
  | nil => rfl
  | cons u us ih => rw [updateFollowingCounts_cons, ih]

theorem updateFollowingCounts_followerCount (s : FollowStore)
    (uids : List String) :
    (updateFollowingCounts s uids).followerCount = s.followerCount := by
  induction uids generalizing s with
  | nil => rfl
  | cons u us ih => rw [updateFollowingCounts_cons, ih]

theorem updateFollowerCounts_not_mem (s : FollowStore) (uids : List String)
    (v : String) :
    v ∉ uids →
      (updateFollowerCounts s uids).followerCount v = s.followerCount v := by
  induction uids generalizing s with
  | nil => intro _; rfl
  | cons u us ih =>
    intro hv
    have hvu : ¬v = u := fun h => hv (h ▸ List.mem_cons_self u us)
    rw [updateFollowerCounts_cons,
      ih _ (fun h => hv (List.mem_cons_of_mem _ h))]
    simp [hvu]

theorem updateFollowingCounts_not_mem (s : FollowStore) (uids : List String)
    (v : String) :
    v ∉ uids →
      (updateFollowingCounts s uids).followingCount v = s.followingCount v := by
  induction uids generalizing s with
  | nil => intro _; rfl
  | cons u us ih =>
    intro hv
    have hvu : ¬v = u := fun h => hv (h ▸ List.mem_cons_self u us)
    rw [updateFollowingCounts_cons,
      ih _ (fun h => hv (List.mem_cons_of_mem _ h))]
    simp [hvu]

theorem updateFollowerCounts_mem (s : FollowStore) (uids : List String)
    (v : String) :
    v ∈ uids →
      (updateFollowerCounts s uids).followerCount v =
        ((s.followers v).length : Int) := by
  induction uids generalizing s with
  | nil => intro hv; cases hv
  | cons u us ih =>
    intro hv
    by_cases h : v ∈ us
    · rw [updateFollowerCounts_cons]
      exact ih _ h
    · have hvu : v = u := by
        rcases List.mem_cons.mp hv with h1 | h2
        · exact h1
        · exact absurd h2 h
      subst hvu
      rw [updateFollowerCounts_cons, updateFollowerCounts_not_mem _ _ _ h]
      simp

theorem updateFollowingCounts_mem (s : FollowStore) (uids : List String)
    (v : String) :
    v ∈ uids →
      (updateFollowingCounts s uids).followingCount v =
        ((s.following v).length : Int) := by
  induction uids generalizing s with
  | nil => intro hv; cases hv
  | cons u us ih =>
    intro hv
    by_cases h : v ∈ us
    · rw [updateFollowingCounts_cons]
      exact ih _ h
    · have hvu : v = u := by
        rcases List.mem_cons.mp hv with h1 | h2
        · exact h1
        · exact absurd h2 h
      subst hvu
      rw [updateFollowingCounts_cons, updateFollowingCounts_not_mem _ _ _ h]
      simp

/-! Claim theorems. -/

/-- C1 (counterexample): with the guard holding the content-phase marker
`user.delete` for uid 7, `deleteAccount(7)` does not fail with
AlreadyDeleting — it proceeds and returns the user snapshot — refuting
the claim that any existing guard entry blocks a deletion-phase entry
attempt regardless of phase. -/
theorem C1_counterexample :
    guardGet [("7", Phase.userDelete)] "7" = some Phase.userDelete ∧
    (deleteAccount okAccountEnv [("7", Phase.userDelete)] ⟨"7", some 7⟩).result
      = Except.ok aliceData :=
  ⟨rfl, rfl⟩

/-- C1 (amended): `deleteContent` fails with AlreadyDeleting whenever any
guard entry exists for the uid (either phase marker), leaving the guard
unchanged; `deleteAccount` fails with AlreadyDeleting only when the
existing entry is exactly the account-phase marker `user.deleteAccount`
(a content-phase entry does not block it). -/
theorem C1_amended_guard (env : ContentEnv) (aenv : AccountEnv)
    (g g2 : Guard) (uid uid2 : Uid)
    (hv : parseLeZero uid = false)
    (hc : (guardGet g uid.key).isSome = true)
    (ha : guardGet g2 uid2.key = some Phase.userDeleteAccount) :
    deleteContent env g uid = ⟨Except.error JsErr.alreadyDeleting, g, []⟩ ∧
    deleteAccount aenv g2 uid2 = ⟨Except.error JsErr.alreadyDeleting, g2, []⟩ :=
  ⟨deleteContent_held env g uid hv hc, deleteAccount_held aenv g2 uid2 ha⟩

/-- C1 witness: the amended guard behaviour at concrete inputs (a
content-phase entry blocks `deleteContent`; an account-phase entry blocks
`deleteAccount`). -/
theorem C1_amended_guard_witness :
    deleteContent okContentEnv [("7", Phase.userDelete)] ⟨"7", some 7⟩
        = ⟨Except.error JsErr.alreadyDeleting, [("7", Phase.userDelete)], []⟩ ∧
    deleteAccount okAccountEnv [("9", Phase.userDeleteAccount)] ⟨"9", some 9⟩
        = ⟨Except.error JsErr.alreadyDeleting,
            [("9", Phase.userDeleteAccount)], []⟩ :=
  C1_amended_guard okContentEnv okAccountEnv _ _ _ _ rfl rfl rfl

/-- C2 (counterexample): with a valid uid, an empty guard, and
`deletePosts` rejecting, `deleteContent` propagates the error while the
`user.delete` guard entry for the uid is still in place — the entry is
leaked, not removed before the error propagates. -/
theorem C2_counterexample :
    (deleteContent postsFailEnv [] uid42).result
        = Except.error (JsErr.other "boom") ∧
    guardGet (deleteContent postsFailEnv [] uid42).guard "42"
        = some Phase.userDelete :=
  ⟨rfl, rfl⟩

/-- C2 (amended): the guard entry for the uid is removed when a phase
completes successfully and on `deleteAccount`'s UserNotFound exit; when
any other awaited sub-operation rejects after the entry was set, the
error propagates with the phase marker still in place (leaked). -/
theorem C2_amended_guard_release (env : ContentEnv) (aenv : AccountEnv)
    (g g2 : Guard) (uid uid2 : Uid) :
    ((deleteContent env g uid).result = Except.ok () →
      guardGet (deleteContent env g uid).guard uid.key = none) ∧
    (∀ ud, (deleteAccount aenv g2 uid2).result = Except.ok ud →
      guardGet (deleteAccount aenv g2 uid2).guard uid2.key = none) ∧
    (guardGet g2 uid2.key ≠ some Phase.userDeleteAccount →
      aenv.stepResult AccountStep.removeFromSortedSets = none →
      aenv.stepResult AccountStep.getUserObject = none →
      recordTruthy aenv.userObject = false →
      guardGet (deleteAccount aenv g2 uid2).guard uid2.key = none) ∧
    (parseLeZero uid = false → (guardGet g uid.key).isSome = false →
      ∀ e, (deleteContent env g uid).result = Except.error e →
        guardGet (deleteContent env g uid).guard uid.key
          = some Phase.userDelete) ∧
    (guardGet g2 uid2.key ≠ some Phase.userDeleteAccount →
      ¬(aenv.stepResult AccountStep.removeFromSortedSets = none ∧
        aenv.stepResult AccountStep.getUserObject = none ∧
        recordTruthy aenv.userObject = false) →
      ∀ e, (deleteAccount aenv g2 uid2).result = Except.error e →
        guardGet (deleteAccount aenv g2 uid2).guard uid2.key
          = some Phase.userDeleteAccount) :=
  ⟨fun h => deleteContent_ok_guard env g uid h,
   fun ud h => deleteAccount_ok_guard aenv g2 uid2 ud h,
   fun hg h1 h2 htr => (deleteAccount_noUser aenv g2 uid2 hg h1 h2 htr).2.1,
   fun hv hg e h => deleteContent_error_guard env g uid hv hg e h,
   fun hg hnot e h => deleteAccount_error_keeps aenv g2 uid2 hg hnot e h⟩

/-- C2 witness: on a successful content phase at concrete inputs, the
guard entry for the uid is cleared. -/
theorem C2_amended_guard_release_witness :
    guardGet (deleteContent okContentEnv [] uid42).guard "42" = none :=
  (C2_amended_guard_release okContentEnv okAccountEnv [] [] uid42 uid42).1 rfl

/-- C3 (counterexample): a rimraf failure while removing the profile
cover files propagates out of `deleteImages` and aborts `deleteContent`:
the phase fails with that error and no later sub-operation runs,
refuting the claim that profile-media cleanup errors are swallowed. -/
theorem C3_counterexample :
    (deleteContent coverFailEnv [] uid42).result
        = Except.error (JsErr.other "EPERM") ∧
    (deleteContent coverFailEnv [] uid42).trace = [ContentStep.images] :=
  ⟨rfl, rfl⟩

/-- C3 (amended): only the diagnostic exec file count swallows its
errors — its outcome never affects the result of `deleteImages`; an
error from either awaited rimraf call propagates and aborts the
enclosing content phase before any later sub-operation starts. -/
theorem C3_amended_images (e1 e2 : Option String) (rc ra : Option JsErr)
    (cenv : ContentEnv) (g : Guard) (uid : Uid) :
    deleteImagesRun ⟨e1, e2, rc, ra⟩ = deleteImagesRun ⟨none, none, rc, ra⟩ ∧
    (∀ err, (rc = some err ∨ (rc = none ∧ ra = some err)) →
      parseLeZero uid = false → (guardGet g uid.key).isSome = false →
      cenv.images = ⟨e1, e2, rc, ra⟩ →
      (deleteContent cenv g uid).result = Except.error err ∧
      (deleteContent cenv g uid).trace = [ContentStep.images]) := by
  constructor
  · rfl
  · intro err herr hv hg hi
    have himg : deleteImagesRun cenv.images = Except.error err := by
      rcases herr with h | hpair
      · rw [hi]; simp [deleteImagesRun, h]
      · rw [hi]; simp [deleteImagesRun, hpair.1, hpair.2]
    constructor <;> simp [deleteContent, hv, hg, himg]

/-- C3 witness: a concrete failing rimraf outcome aborts the content
phase with that error after only the images step. -/
theorem C3_amended_images_witness :
    (deleteContent coverFailEnv [] ⟨"7", some 7⟩).result
        = Except.error (JsErr.other "EPERM") ∧
    (deleteContent coverFailEnv [] ⟨"7", some 7⟩).trace
        = [ContentStep.images] :=
  (C3_amended_images none none (some (JsErr.other "EPERM")) none coverFailEnv
      [] ⟨"7", some 7⟩).2 (JsErr.other "EPERM") (Or.inl rfl) rfl rfl rfl

/-- C4 (counterexample): a malformed non-numeric uid (parseInt NaN) does
not fail with InvalidUser: with an empty guard and all sub-operations
resolving, `deleteContent` runs to completion, performing all store
operations — refuting the claim that malformed ids fail before any store
operation. -/
theorem C4_counterexample :
    (deleteContent okContentEnv [] uidMalformed).result ≠
        Except.error JsErr.invalidUid ∧
    (deleteContent okContentEnv [] uidMalformed).result = Except.ok () ∧
    (deleteContent okContentEnv [] uidMalformed).trace = contentOrder := by
  refine ⟨fun h => ?_, rfl, rfl⟩
  rw [show (deleteContent okContentEnv [] uidMalformed).result
      = Except.ok () from rfl] at h
  exact Except.noConfusion h

/-- C4 (amended): `deleteContent` fails with InvalidUser — before any
store operation and before setting a guard entry — exactly for uids that
parse to an integer at most 0 (zero or negative); a malformed
non-numeric uid (parseInt NaN) passes the validation test and
proceeds. -/
theorem C4_amended_validation (env : ContentEnv) (g : Guard) (uid : Uid) :
    (∀ n : Int, uid.parsed = some n → n ≤ 0 →
      deleteContent env g uid = ⟨Except.error JsErr.invalidUid, g, []⟩) ∧
    (uid.parsed = none → parseLeZero uid = false) := by
  constructor
  · intro n hp hn
    exact deleteContent_invalid env g uid (by simp [parseLeZero, hp, hn])
  · intro hp
    simp [parseLeZero, hp]

/-- C4 witness: uid 0 fails with InvalidUser leaving the guard and trace
empty, and the malformed uid passes the validation test. -/
theorem C4_amended_validation_witness :
    deleteContent okContentEnv [] ⟨"0", some 0⟩
        = ⟨Except.error JsErr.invalidUid, [], []⟩ ∧
    parseLeZero uidMalformed = false :=
  ⟨(C4_amended_validation okContentEnv [] ⟨"0", some 0⟩).1 0 rfl (by decide),
   (C4_amended_validation okContentEnv [] uidMalformed).2 rfl⟩

/-- C5: when the account-phase guard check passes, the leaderboard
removal and the record load resolve, and the loaded record is missing or
has a falsy username, `deleteAccount` removes the guard entry for the
uid, fails with UserNotFound, and performs none of the subsequent
cleanup steps: the trace stops at the record load, so no hook firing,
vote/chat cleanup, key deletion, or uniqueness-index removal happens. -/
theorem C5_noUser_path (aenv : AccountEnv) (g : Guard) (uid : Uid)
    (hg : guardGet g uid.key ≠ some Phase.userDeleteAccount)
    (h1 : aenv.stepResult AccountStep.removeFromSortedSets = none)
    (h2 : aenv.stepResult AccountStep.getUserObject = none)
    (htr : recordTruthy aenv.userObject = false) :
    (deleteAccount aenv g uid).result = Except.error JsErr.noUser ∧
    guardGet (deleteAccount aenv g uid).guard uid.key = none ∧
    (deleteAccount aenv g uid).trace =
      [AccountStep.removeFromSortedSets, AccountStep.getUserObject] :=
  deleteAccount_noUser aenv g uid hg h1 h2 htr

/-- C5 witness: a concrete missing user record takes the UserNotFound
path. -/
theorem C5_noUser_path_witness :
    (deleteAccount noUserEnv [] uid42).result = Except.error JsErr.noUser ∧
    guardGet (deleteAccount noUserEnv [] uid42).guard "42" = none ∧
    (deleteAccount noUserEnv [] uid42).trace =
      [AccountStep.removeFromSortedSets, AccountStep.getUserObject] :=
  C5_noUser_path noUserEnv [] uid42 (by simp [guardGet]) rfl rfl rfl

/-- C6: the queued-submission purge identifies exactly the queue entries
whose uid field strictly matches the target uid, accumulating matches in
queue order across all 500-entry batches — independent of batch
boundaries — and the accumulated list, removed sequentially entry by
entry, equals the filter of the entire global queue. -/
theorem C6_deleteQueued_exact (queue : List String)
    (getObj : String → QueueEntry) (uid : Uid) :
    deleteQueued queue getObj uid =
      ((queue.map getObj).filter
        (fun d => jsStrictEqNum d.uid uid.parsed)).map QueueEntry.id := by
  unfold deleteQueued
  rw [deleteQueued_chunks, flatten_chunksOf, List.nil_append]

/-- C7 (counterexample): user 2 follows user 1 and is not followed back,
and user 2's followerCount field has drifted (5, with an empty followers
set).  After deleting user 1, user 2's followerCount is still 5, not the
live cardinality 0 of its followers set — refuting the claim that both
counters of every affected user are recomputed from live set size. -/
theorem C7_counterexample :
    "2" ∈ driftStore.followers "1" ∧
    (deleteUserFromFollowers driftStore "1").followerCount "2" ≠
      (((deleteUserFromFollowers driftStore "1").followers "2").length : Int) := by
  constructor
  · decide
  · decide

/-- C7 (amended): after `deleteUserFromFollowers(U)`, for every V that U
followed, V's followerCount equals the live cardinality of V's followers
set after U's removal, and for every V that followed U, V's
followingCount equals the live cardinality of V's following set after
U's removal (each a recomputation from set size, not a decrement); the
opposite counter of a one-sided relation is not touched. -/
theorem C7_amended_follow_counts (s : FollowStore) (uid v : String) :
    (v ∈ s.following uid →
      (deleteUserFromFollowers s uid).followerCount v =
        (((deleteUserFromFollowers s uid).followers v).length : Int)) ∧
    (v ∈ s.followers uid →
      (deleteUserFromFollowers s uid).followingCount v =
        (((deleteUserFromFollowers s uid).following v).length : Int)) := by
  simp only [deleteUserFromFollowers]
  constructor
  · intro hv
    rw [congrFun (updateFollowingCounts_followerCount _ _) v,
      updateFollowerCounts_mem _ _ _ hv,
      congrFun (updateFollowingCounts_followers _ _) v,
      congrFun (updateFollowerCounts_followers _ _) v]
  · intro hv
    rw [updateFollowingCounts_mem _ _ _ hv,
      congrFun (updateFollowingCounts_following _ _) v,
      congrFun (updateFollowerCounts_following _ _) v]

/-- C7 witness: users 1 and 2 follow each other; after deleting user 1,
both of user 2's counters equal the live cardinality 0 of its sets. -/
theorem C7_amended_follow_counts_witness :
    ((deleteUserFromFollowers mutualStore "1").followerCount "2" =
      (((deleteUserFromFollowers mutualStore "1").followers "2").length : Int)) ∧
    ((deleteUserFromFollowers mutualStore "1").followingCount "2" =
      (((deleteUserFromFollowers mutualStore "1").following "2").length : Int)) :=
  ⟨(C7_amended_follow_counts mutualStore "1" "2").1 (by decide),
   (C7_amended_follow_counts mutualStore "1" "2").2 (by decide)⟩

/-- C8 (counterexample): for a record with no fullname, the bulk removal
list still contains a fullname:uid entry (with an undefined member) —
the fullname:uid entry is unconditional, refuting the claim that the
fullname entries are included only when a fullname is present. -/
theorem C8_counterexample :
    truthyStr aliceData.fullname = false ∧
    "fullname:uid" ∈ (bulkRemove "42" aliceData).map Prod.fst := by
  constructor
  · rfl
  · decide

/-- C8 (amended): the uniqueness-index bulk removal always contains the
username:uid, username:sorted, userslug:uid AND fullname:uid entries;
the fullname:sorted entry is present exactly when the record's fullname
is truthy, and the email:uid and email:sorted entries exactly when the
record's email is truthy. -/
theorem C8_amended_bulkRemove (uid : String) (u : UserData) :
    "username:uid" ∈ (bulkRemove uid u).map Prod.fst ∧
    "username:sorted" ∈ (bulkRemove uid u).map Prod.fst ∧
    "userslug:uid" ∈ (bulkRemove uid u).map Prod.fst ∧
    "fullname:uid" ∈ (bulkRemove uid u).map Prod.fst ∧
    ("fullname:sorted" ∈ (bulkRemove uid u).map Prod.fst
      ↔ truthyStr u.fullname = true) ∧
    ("email:uid" ∈ (bulkRemove uid u).map Prod.fst
      ↔ truthyStr u.email = true) ∧
    ("email:sorted" ∈ (bulkRemove uid u).map Prod.fst
      ↔ truthyStr u.email = true) := by
  cases he : truthyStr u.email <;> cases hf : truthyStr u.fullname <;>
    simp [bulkRemove, he, hf]

/-- C9: within `deleteContent`, the sub-operations run strictly in the
order images, posts, topics, uploads, queued — each awaited to
completion before the next begins — so the execution trace is always a
prefix of that order, and it is the full order exactly on success; no
later step appears in the trace once an earlier one throws. -/
theorem C9_content_order (env : ContentEnv) (g : Guard) (uid : Uid) :
    (∃ n, (deleteContent env g uid).trace = contentOrder.take n) ∧
    ((deleteContent env g uid).result = Except.ok () →
      (deleteContent env g uid).trace = contentOrder) := by
  constructor
  · cases hv : parseLeZero uid <;>
      cases hg : (guardGet g uid.key).isSome <;>
        rcases hi : deleteImagesRun env.images with e | u <;>
          cases hp : env.posts <;> cases ht : env.topics <;>
            cases hu : env.uploads <;> cases hq : env.queued <;>
              simp_all [deleteContent] <;>
                first
                  | exact ⟨0, rfl⟩
                  | exact ⟨1, rfl⟩
                  | exact ⟨2, rfl⟩
                  | exact ⟨3, rfl⟩
                  | exact ⟨4, rfl⟩
                  | exact ⟨5, rfl⟩
  · intro h
    cases hv : parseLeZero uid <;>
      cases hg : (guardGet g uid.key).isSome <;>
        rcases hi : deleteImagesRun env.images with e | u <;>
          cases hp : env.posts <;> cases ht : env.topics <;>
            cases hu : env.uploads <;> cases hq : env.queued <;>
              simp_all [deleteContent, contentOrder]

/-- C9 witness: with every sub-operation resolving, the trace is exactly
the full source order. -/
theorem C9_content_order_witness :
    (deleteContent okContentEnv [] uid42).trace = contentOrder :=
  (C9_content_order okContentEnv [] uid42).2 rfl

/-- C10: `deleteAccount` performs no validation of the uid: for any uid
— zero, negative, or malformed — it never fails with InvalidUser
(provided no collaborator itself rejects with that error); and when the
guard check passes and the record is absent, it has already issued the
global leaderboard sorted-set removals before failing with UserNotFound
— the trace is removeFromSortedSets followed by the record load. -/
theorem C10_no_validation (aenv : AccountEnv) (g : Guard) (uid : Uid)
    (hni : ∀ s, aenv.stepResult s ≠ some JsErr.invalidUid) :
    (deleteAccount aenv g uid).result ≠ Except.error JsErr.invalidUid ∧
    (guardGet g uid.key ≠ some Phase.userDeleteAccount →
      aenv.stepResult AccountStep.removeFromSortedSets = none →
      aenv.stepResult AccountStep.getUserObject = none →
      aenv.userObject = none →
      (deleteAccount aenv g uid).result = Except.error JsErr.noUser ∧
      (deleteAccount aenv g uid).trace =
        [AccountStep.removeFromSortedSets, AccountStep.getUserObject]) := by
  constructor
  · exact deleteAccount_no_invalid aenv g uid hni
  · intro hg h1 h2 ho
    have htr : recordTruthy aenv.userObject = false := by rw [ho]; rfl
    exact ⟨(deleteAccount_noUser aenv g uid hg h1 h2 htr).1,
      (deleteAccount_noUser aenv g uid hg h1 h2 htr).2.2⟩

/-- C10 witness: a malformed uid with a missing record does not fail
with InvalidUser; it fails with UserNotFound after the sorted-set
removals were already issued. -/
theorem C10_no_validation_witness :
    (deleteAccount noUserEnv [] uidMalformed).result ≠
        Except.error JsErr.invalidUid ∧
    (deleteAccount noUserEnv [] uidMalformed).result =
        Except.error JsErr.noUser ∧
    (deleteAccount noUserEnv [] uidMalformed).trace =
      [AccountStep.removeFromSortedSets, AccountStep.getUserObject] := by
  have h := C10_no_validation noUserEnv [] uidMalformed
      (fun s => by simp [noUserEnv])
  have h2 := h.2 (by simp [guardGet]) rfl rfl rfl
  exact ⟨h.1, h2.1, h2.2⟩

end UserDelete
